import Mathlib

/-!
Verification of the skis issue tracker's persistence and query layer
(`src/db/queries.rs`, `src/db/migrations.rs`, `src/models/*.rs`) against its
specification.  The SQLite store is shallowly embedded as a pure `Db` state:
each table is a list of rows, `AUTOINCREMENT` counters and the wall clock are
explicit fields, and every operation of `queries.rs` is translated statement by
statement into a Lean function returning `Except Error α × Db` (the returned
`Db` is the original one whenever the operation fails, matching rusqlite's
rollback of uncommitted transactions and the fact that every failing operation
errors out before its first write).

Modelling conventions:
- Case folding: SQLite's `COLLATE NOCASE` folds ASCII `A`-`Z` only and is
  modelled by `asciiLower`; Rust's `str::to_lowercase` is Unicode-aware and
  is modelled separately by `rustLower` (exact on the Basic Latin and
  Latin-1 Supplement blocks).  The two agree on ASCII but not beyond, and
  `list_issues` mixes them exactly as the source does.
- `datetime('now')` is modelled by a logical clock `Db.clock : Nat`; each
  successful operation advances it by one.
- The `f32` arithmetic of `hsl_to_rgb` is modelled with exact rationals; the
  `u32` hash uses explicit reduction modulo `2 ^ 32` for the wrapping ops.
- The FTS5 index and its triggers are not modelled (no claim concerns search).
-/

deriving instance DecidableEq for Except

/-- ASCII case folding on a character, as done both by SQLite's NOCASE
collation and (on ASCII input) by Rust's `to_lowercase`. -/
def asciiLowerChar (c : Char) : Char := c.toLower

/-- ASCII case folding on a string (character by character). -/
def asciiLower (s : String) : String := String.mk (s.data.map asciiLowerChar)

/-- Rust `char::to_lowercase`, modelled exactly on the Basic Latin and
Latin-1 Supplement blocks, where Unicode's full and simple lowercase
mappings coincide: `A`-`Z` and `À`-`Þ` (multiplication sign excepted) map
down by 32, every other character of these blocks is fixed.  Characters
outside the modelled blocks are left unchanged (an abstraction; the claims
below only evaluate it on these blocks). -/
def rustLowerChar (c : Char) : Char :=
  if 'A' ≤ c ∧ c ≤ 'Z' then Char.ofNat (c.toNat + 32)
  else if 'À' ≤ c ∧ c ≤ 'Þ' ∧ c ≠ '×' then Char.ofNat (c.toNat + 32)
  else c

/-- Rust `str::to_lowercase` (character by character; the modelled blocks
have no multi-character lowercasings). -/
def rustLower (s : String) : String := String.mk (s.data.map rustLowerChar)

/-- Rust `char::is_ascii_hexdigit`. -/
def isAsciiHexdigit (c : Char) : Bool :=
  ('0' ≤ c ∧ c ≤ '9') ∨ ('a' ≤ c ∧ c ≤ 'f') ∨ ('A' ≤ c ∧ c ≤ 'F')

/-- A lowercase hexadecimal digit (what Rust's `{:02x}` format emits). -/
def isLowerHexdigit (c : Char) : Bool :=
  ('0' ≤ c ∧ c ≤ '9') ∨ ('a' ≤ c ∧ c ≤ 'f')

/- Error type, translated from `src/error.rs` (enum `Error`).  The
`rusqlite::Error` payload of the `Sqlite` variant is abstracted to the kinds
of failure the modelled statements can produce. -/

/-- Underlying storage-engine failures surfaced unchanged through
`Error::Sqlite` (`#[error(transparent)]`). -/
inductive SqliteError where
  | uniqueConstraint
  | foreignKeyConstraint
  | tableExists
  deriving DecidableEq, Repr

/-- The `Error` enum of `src/error.rs`. -/
inductive Error where
  | notARepository
  | alreadyInitialized
  | issueNotFound (id : Int)
  | commentNotFound (id : Int)
  | labelNotFound (name : String)
  | invalidStateTransition (id : Int) (state : String)
  | invalidColor (color : String)
  | invalidIssueType (s : String)
  | invalidStateReason (s : String)
  | selfLink
  | duplicateLink (a b : Int)
  | notImplemented (s : String)
  | sqlite (e : SqliteError)
  deriving DecidableEq, Repr

/- Enumerated fields, from `src/models/issue.rs`. -/

/-- `IssueType` (`epic | task | bug | request`, default `task`). -/
inductive IssueType where
  | epic | task | bug | request
  deriving DecidableEq, Repr

/-- `IssueState` (`open | closed`, default `open`). -/
inductive IssueState where
  | «open» | closed
  deriving DecidableEq, Repr

/-- `StateReason` (`completed | not_planned`). -/
inductive StateReason where
  | completed | notPlanned
  deriving DecidableEq, Repr

/-- `SortField` (`updated | created | id`, default `updated`). -/
inductive SortField where
  | updated | created | id
  deriving DecidableEq, Repr

/-- `SortOrder` (`asc | desc`, default `desc`). -/
inductive SortOrder where
  | asc | desc
  deriving DecidableEq, Repr

/- Color generation, from `src/models/label.rs`. -/

/-- `validate_color`: a supplied color must be exactly 6 ASCII hex digits. -/
def validate_color (color : String) : Except Error Unit :=
  if color.length ≠ 6 then .error (.invalidColor color)
  else if ¬ (color.toList.all isAsciiHexdigit) then .error (.invalidColor color)
  else .ok ()

/-- Reduction modulo `2 ^ 32`, modelling `u32` wrapping arithmetic. -/
def wrap32 (n : Nat) : Nat := n % 4294967296

/-- The position-weighted byte-sum hash inside `generate_color`:
`bytes().enumerate().fold(0u32, |acc, (i, b)| acc.wrapping_add((b as
u32).wrapping_mul((i as u32).wrapping_add(1))))` over the bytes of the
lower-cased name (code points coincide with UTF-8 bytes on ASCII input). -/
def nameHash (lowered : String) : Nat :=
  (lowered.toList.map Char.toNat).enum.foldl
    (fun acc p => wrap32 (acc + wrap32 (p.2 * wrap32 (p.1 + 1)))) 0

/-- Absolute value on ℚ (Rust `f32::abs`). -/
def qabs (q : ℚ) : ℚ := if q < 0 then -q else q

/-- Rust's `%` on nonnegative floats (`(h / 60.0) % 2.0`), exactly on ℚ. -/
def qmod2 (q : ℚ) : ℚ := q - 2 * ((q / 2).floor : ℚ)

/-- Rust's `as u8` cast on a nonnegative-range float: truncation with
saturation at 0 and 255. -/
def ratToByte (q : ℚ) : Nat := min 255 (Int.toNat q.floor)

/-- `hsl_to_rgb` of `src/models/label.rs`, with the `f32` arithmetic carried
out exactly in ℚ (the hue is an exact small integer in the caller, and the
claims proved below do not depend on `f32` rounding).  The six-way match is
on `h as u32`. -/
def hsl_to_rgb (h : Nat) (s l : ℚ) : Nat × Nat × Nat :=
  let c : ℚ := (1 - qabs (2 * l - 1)) * s
  let x : ℚ := c * (1 - qabs (qmod2 ((h : ℚ) / 60) - 1))
  let m : ℚ := l - c / 2
  let rgb : ℚ × ℚ × ℚ :=
    if h ≤ 59 then (c, x, 0)
    else if h ≤ 119 then (x, c, 0)
    else if h ≤ 179 then (0, c, x)
    else if h ≤ 239 then (0, x, c)
    else if h ≤ 299 then (x, 0, c)
    else (c, 0, x)
  (ratToByte ((rgb.1 + m) * 255), ratToByte ((rgb.2.1 + m) * 255),
    ratToByte ((rgb.2.2 + m) * 255))

/-- One lowercase hexadecimal digit. -/
def hexDigitChar (n : Nat) : Char :=
  match n % 16 with
  | 0 => '0' | 1 => '1' | 2 => '2' | 3 => '3'
  | 4 => '4' | 5 => '5' | 6 => '6' | 7 => '7'
  | 8 => '8' | 9 => '9' | 10 => 'a' | 11 => 'b'
  | 12 => 'c' | 13 => 'd' | 14 => 'e' | _ => 'f'

/-- Rust's `{:02x}` format of a byte: exactly two lowercase hex digits. -/
def toHex2 (n : Nat) : String := String.mk [hexDigitChar (n / 16), hexDigitChar n]

/-- `generate_color`: hash the lower-cased name, pick a hue from it, convert
HSL `(hue, 0.65, 0.45)` to RGB and format as `{:02x}{:02x}{:02x}`. -/
def generate_color (name : String) : String :=
  let hash := nameHash (asciiLower name)
  let hue := hash % 360
  let rgb := hsl_to_rgb hue (65 / 100) (45 / 100)
  toHex2 rgb.1 ++ toHex2 rgb.2.1 ++ toHex2 rgb.2.2

/- Entity rows, from `src/models/issue.rs`, `comment.rs`, `label.rs` and the
table definitions of `migrations.rs`.  Timestamps are logical clock values. -/

/-- A row of the `issues` table / the `Issue` struct. -/
structure Issue where
  id : Int
  title : String
  body : Option String
  issue_type : IssueType
  state : IssueState
  state_reason : Option StateReason
  created_at : Nat
  updated_at : Nat
  closed_at : Option Nat
  deleted_at : Option Nat
  deriving DecidableEq, Repr

/-- A row of the `labels` table / the `Label` struct. -/
structure Label where
  id : Int
  name : String
  description : Option String
  color : Option String
  deriving DecidableEq, Repr

/-- A row of the `comments` table / the `Comment` struct. -/
structure Comment where
  id : Int
  issue_id : Int
  body : String
  created_at : Nat
  updated_at : Nat
  deriving DecidableEq, Repr

/-- A row of the `issue_links` table (canonical order, `issue_a_id <
issue_b_id` by the table's CHECK constraint). -/
structure Link where
  issue_a_id : Int
  issue_b_id : Int
  created_at : Nat
  deriving DecidableEq, Repr

/-- `IssueCreate` of `src/models/issue.rs`. -/
structure IssueCreate where
  title : String
  body : Option String
  issue_type : IssueType
  labels : List String
  deriving DecidableEq, Repr

/-- `IssueUpdate` of `src/models/issue.rs`. -/
structure IssueUpdate where
  title : Option String
  body : Option String
  issue_type : Option IssueType
  deriving DecidableEq, Repr

/-- `IssueFilter` of `src/models/issue.rs`. -/
structure IssueFilter where
  state : Option IssueState
  issue_type : Option IssueType
  labels : List String
  include_deleted : Bool
  sort_by : SortField
  sort_order : SortOrder
  limit : Nat
  offset : Nat
  deriving DecidableEq, Repr

/-- The `Default` impl for `IssueFilter`: all states, no label filter,
deleted excluded, sort by `updated` descending, limit 30, offset 0. -/
def IssueFilter.default : IssueFilter :=
  { state := none, issue_type := none, labels := [], include_deleted := false,
    sort_by := .updated, sort_order := .desc, limit := 30, offset := 0 }

/-- The migrated (schema version 1) database state: one list per table,
`AUTOINCREMENT` counters, and the logical clock standing for `datetime('now')`.
`issue_labels` rows are `(issue_id, label_id)` pairs. -/
structure Db where
  issues : List Issue
  labels : List Label
  issue_labels : List (Int × Int)
  comments : List Comment
  issue_links : List Link
  next_issue_id : Int
  next_label_id : Int
  next_comment_id : Int
  clock : Nat
  deriving DecidableEq, Repr

/-- The freshly migrated empty database (`AUTOINCREMENT` ids start at 1). -/
def Db.empty : Db :=
  { issues := [], labels := [], issue_labels := [], comments := [],
    issue_links := [], next_issue_id := 1, next_label_id := 1,
    next_comment_id := 1, clock := 0 }

/-- Advance the logical clock at the end of a successful operation. -/
def Db.tick (db : Db) : Db := { db with clock := db.clock + 1 }

/-- `SELECT ... FROM issues WHERE id = ?1` with `query_row(...).optional()`:
the first row with the given id, if any.  This is `get_issue`, which
deliberately does not filter on `deleted_at`. -/
def get_issue (db : Db) (id : Int) : Option Issue :=
  db.issues.find? (fun i => i.id = id)

/-- `UPDATE issues ... WHERE id = ?`: rewrite every row whose id matches, and
let the `issues_update_timestamp` trigger stamp `updated_at = datetime('now')`
on the touched rows. -/
def updateIssueRows (db : Db) (id : Int) (f : Issue → Issue) : Db :=
  { db with issues := db.issues.map (fun i =>
      if i.id = id then { f i with updated_at := db.clock } else i) }

/-- `SELECT EXISTS(SELECT 1 FROM issues WHERE id = ?1)`. -/
def issueExists (db : Db) (id : Int) : Bool :=
  db.issues.any (fun i => i.id = id)

/-- `SELECT ... FROM labels WHERE name = ?1 COLLATE NOCASE` (first match). -/
def findLabelNocase (db : Db) (name : String) : Option Label :=
  db.labels.find? (fun l => asciiLower l.name = asciiLower name)

/-- `SELECT EXISTS(SELECT 1 FROM labels WHERE name = ?1 COLLATE NOCASE)`. -/
def labelExistsNocase (db : Db) (name : String) : Bool :=
  (findLabelNocase db name).isSome

/- Mutation engine, from `src/db/queries.rs`. -/

/-- The label-existence loop at the top of `create_issue`: the first requested
label name with no case-insensitive match, if any (the Rust loop returns the
error for the first missing name). -/
def firstMissingLabel (db : Db) : List String → Option String
  | [] => none
  | n :: rest =>
      if labelExistsNocase db n then firstMissingLabel db rest else some n

/-- `INSERT OR IGNORE INTO issue_labels (issue_id, label_id) SELECT ?1, id
FROM labels WHERE name = ?2 COLLATE NOCASE`: the NOCASE-unique index on
`labels.name` makes at most one row match, and `OR IGNORE` drops the insert
when the `(issue_id, label_id)` primary key is already present. -/
def attachIgnore (db : Db) (issue_id : Int) (name : String) : Db :=
  match findLabelNocase db name with
  | none => db
  | some l =>
      if (issue_id, l.id) ∈ db.issue_labels then db
      else { db with issue_labels := db.issue_labels ++ [(issue_id, l.id)] }

/-- The row inserted by `INSERT INTO issues (title, body, type)`: column
defaults give `state='open'`, null `state_reason`/`closed_at`/`deleted_at`,
and `datetime('now')` timestamps; `AUTOINCREMENT` assigns the next id. -/
def newIssueRow (db : Db) (c : IssueCreate) : Issue :=
  { id := db.next_issue_id, title := c.title, body := c.body,
    issue_type := c.issue_type, state := .«open», state_reason := none,
    created_at := db.clock, updated_at := db.clock, closed_at := none,
    deleted_at := none }

/-- The store right after the issue insert of `create_issue`. -/
def createBase (db : Db) (c : IssueCreate) : Db :=
  { db with issues := db.issues ++ [newIssueRow db c],
            next_issue_id := db.next_issue_id + 1 }

/-- `create_issue`: verify all labels exist first (whole operation fails with
`LabelNotFound`, nothing inserted), then insert the issue with defaults
`state=open`, attach each requested label idempotently, commit, and re-fetch
the created row (by `last_insert_rowid`). -/
def create_issue (db : Db) (c : IssueCreate) : Except Error Issue × Db :=
  match firstMissingLabel db c.labels with
  | some n => (.error (.labelNotFound n), db)
  | none =>
    let db2 := c.labels.foldl
      (fun acc n => attachIgnore acc db.next_issue_id n) (createBase db c)
    match get_issue db2 db.next_issue_id with
    | some i => (.ok i, db2.tick)
    | none => (.error (.issueNotFound db.next_issue_id), db2)

/-- `INSERT INTO comments (issue_id, body) VALUES (?1, ?2)` with the
`created_at`/`updated_at` column defaults. -/
def insertCommentRow (db : Db) (issue_id : Int) (body : String) : Db :=
  { db with
    comments := db.comments ++
      [{ id := db.next_comment_id, issue_id := issue_id, body := body,
         created_at := db.clock, updated_at := db.clock }],
    next_comment_id := db.next_comment_id + 1 }

/-- `close_issue_with_comment`: fetch, refuse when already closed, then in one
transaction stamp `state/state_reason/closed_at` and insert the optional
comment, and re-fetch the closed row after the commit. -/
def close_issue_with_comment (db : Db) (id : Int) (reason : StateReason)
    (comment : Option String) : Except Error Issue × Db :=
  match get_issue db id with
  | none => (.error (.issueNotFound id), db)
  | some issue =>
    if issue.state = .closed then (.error (.invalidStateTransition id "closed"), db)
    else
      let db1 := updateIssueRows db id (fun i =>
        { i with state := .closed, state_reason := some reason,
                 closed_at := some db.clock })
      let db2 :=
        match comment with
        | some body => insertCommentRow db1 id body
        | none => db1
      match get_issue db2 id with
      | some i => (.ok i, db2.tick)
      | none => (.error (.issueNotFound id), db2)

/-- `close_issue` delegates to `close_issue_with_comment` with no comment. -/
def close_issue (db : Db) (id : Int) (reason : StateReason) :
    Except Error Issue × Db :=
  close_issue_with_comment db id reason none

/-- `reopen_issue`: fetch, refuse when already open, clear
`state_reason`/`closed_at`, set `state=open`, re-fetch. -/
def reopen_issue (db : Db) (id : Int) : Except Error Issue × Db :=
  match get_issue db id with
  | none => (.error (.issueNotFound id), db)
  | some issue =>
    if issue.state = .«open» then (.error (.invalidStateTransition id "open"), db)
    else
      let db1 := updateIssueRows db id (fun i =>
        { i with state := .«open», state_reason := none, closed_at := none })
      match get_issue db1 id with
      | some i => (.ok i, db1.tick)
      | none => (.error (.issueNotFound id), db1)

/-- `delete_issue`: soft delete; stamps `deleted_at = datetime('now')` after
checking the issue exists. -/
def delete_issue (db : Db) (id : Int) : Except Error Unit × Db :=
  match get_issue db id with
  | none => (.error (.issueNotFound id), db)
  | some _ =>
      (.ok (), (updateIssueRows db id (fun i =>
        { i with deleted_at := some db.clock })).tick)

/-- `restore_issue`: clears `deleted_at` after checking the issue exists. -/
def restore_issue (db : Db) (id : Int) : Except Error Issue × Db :=
  match get_issue db id with
  | none => (.error (.issueNotFound id), db)
  | some _ =>
      let db1 := updateIssueRows db id (fun i => { i with deleted_at := none })
      match get_issue db1 id with
      | some i => (.ok i, db1.tick)
      | none => (.error (.issueNotFound id), db1)

/-- The dynamic `UPDATE issues SET ...` of `update_issue`: only the fields
present in the `IssueUpdate` are written. -/
def applyIssueUpdate (u : IssueUpdate) (i : Issue) : Issue :=
  { i with
    title := u.title.getD i.title,
    body := match u.body with | some b => some b | none => i.body,
    issue_type := u.issue_type.getD i.issue_type }

/-- `update_issue`: fails with `IssueNotFound` on unknown id; a no-op update
(all fields absent) returns the current row without touching it; otherwise
applies the present fields (the trigger refreshes `updated_at`) and
re-fetches. -/
def update_issue (db : Db) (id : Int) (u : IssueUpdate) :
    Except Error Issue × Db :=
  match get_issue db id with
  | none => (.error (.issueNotFound id), db)
  | some cur =>
    if u.title = none ∧ u.body = none ∧ u.issue_type = none then (.ok cur, db)
    else
      let db1 := updateIssueRows db id (applyIssueUpdate u)
      match get_issue db1 id with
      | some i => (.ok i, db1.tick)
      | none => (.error (.issueNotFound id), db1)

/- Link operations, from `src/db/queries.rs`. -/

/-- The canonical smaller endpoint of a link:
`let (min_id, max_id) = if issue_a < issue_b { (issue_a, issue_b) } else
{ (issue_b, issue_a) }`. -/
def minId (issue_a issue_b : Int) : Int :=
  if issue_a < issue_b then issue_a else issue_b

/-- The canonical larger endpoint of a link. -/
def maxId (issue_a issue_b : Int) : Int :=
  if issue_a < issue_b then issue_b else issue_a

/-- `SELECT EXISTS(SELECT 1 FROM issue_links WHERE issue_a_id = ?1 AND
issue_b_id = ?2)`. -/
def linkExists (db : Db) (x y : Int) : Bool :=
  db.issue_links.any (fun l => l.issue_a_id = x ∧ l.issue_b_id = y)

/-- `add_link`: reject self-links, require both issues to exist, canonicalize
to `(min, max)`, reject an existing canonical pair as `DuplicateLink`, then
insert the canonical row. -/
def add_link (db : Db) (issue_a issue_b : Int) : Except Error Unit × Db :=
  if issue_a = issue_b then (.error .selfLink, db)
  else if ¬ issueExists db issue_a then (.error (.issueNotFound issue_a), db)
  else if ¬ issueExists db issue_b then (.error (.issueNotFound issue_b), db)
  else if linkExists db (minId issue_a issue_b) (maxId issue_a issue_b) then
    (.error (.duplicateLink (minId issue_a issue_b) (maxId issue_a issue_b)), db)
  else
    (.ok (), ({ db with issue_links := db.issue_links ++
      [({ issue_a_id := minId issue_a issue_b,
          issue_b_id := maxId issue_a issue_b,
          created_at := db.clock } : Link)] }).tick)

/-- `remove_link`: canonicalize to `(min, max)` and `DELETE` the matching
rows; succeeds even when no such link exists. -/
def remove_link (db : Db) (issue_a issue_b : Int) : Except Error Unit × Db :=
  (.ok (), ({ db with issue_links := db.issue_links.filter (fun l =>
      ¬ (l.issue_a_id = minId issue_a issue_b ∧
         l.issue_b_id = maxId issue_a issue_b)) }).tick)

/- Label operations, from `src/db/queries.rs`. -/

/-- The `INSERT INTO labels (name, description, color)` of `create_label`:
the NOCASE-unique index on `labels.name` rejects a case-insensitive duplicate
name with a SQLite UNIQUE-constraint failure, surfaced unchanged as
`Error::Sqlite`; on success the inserted row is re-fetched by
`last_insert_rowid`. -/
def insertLabelRow (db : Db) (name : String) (description : Option String)
    (color : String) : Except Error Label × Db :=
  if db.labels.any (fun l => asciiLower l.name = asciiLower name) then
    (.error (.sqlite .uniqueConstraint), db)
  else
    let row : Label := { id := db.next_label_id, name := name,
                         description := description, color := some color }
    (.ok row, ({ db with labels := db.labels ++ [row],
                         next_label_id := db.next_label_id + 1 }).tick)

/-- `create_label`: validate a supplied color, otherwise auto-generate one
from the name, then insert. -/
def create_label (db : Db) (name : String) (description : Option String)
    (color : Option String) : Except Error Label × Db :=
  match color with
  | some c =>
    match validate_color c with
    | .error e => (.error e, db)
    | .ok _ => insertLabelRow db name description c
  | none => insertLabelRow db name description (generate_color name)

/-- `add_label_to_issue`: look the label up by NOCASE name (failing with
`LabelNotFound`), then `INSERT OR IGNORE` the association.  `OR IGNORE`
swallows the primary-key conflict but not a FOREIGN KEY violation: with
`PRAGMA foreign_keys = ON` (set by `SkisDb::open_at`/`init`) an unknown
`issue_id` makes the insert fail with a SQLite constraint error.  The target
issue's existence is never checked explicitly. -/
def add_label_to_issue (db : Db) (issue_id : Int) (label_name : String) :
    Except Error Unit × Db :=
  match findLabelNocase db label_name with
  | none => (.error (.labelNotFound label_name), db)
  | some l =>
      if (issue_id, l.id) ∈ db.issue_labels then (.ok (), db.tick)
      else if issueExists db issue_id then
        (.ok (), ({ db with issue_labels :=
          db.issue_labels ++ [(issue_id, l.id)] }).tick)
      else (.error (.sqlite .foreignKeyConstraint), db)

/- Query engine: `list_issues` of `src/db/queries.rs`. -/

/-- The single-label join condition of `list_issues` (zero-or-one-label
branch): `INNER JOIN issue_labels il ON i.id = il.issue_id INNER JOIN labels
l ON il.label_id = l.id ... WHERE l.name = ? COLLATE NOCASE`; the `SELECT
DISTINCT` collapses the join multiplicity back to one row per issue. -/
def issueHasLabelNocase (db : Db) (issue_id : Int) (name : String) : Bool :=
  db.labels.any (fun l =>
    (issue_id, l.id) ∈ db.issue_labels ∧ asciiLower l.name = asciiLower name)

/-- The NOCASE names of an issue's labels, one entry per `issue_labels` row
(the join `issue_labels il INNER JOIN labels l ON il.label_id = l.id` with
`il.issue_id` fixed). -/
def issueLabelNamesLower (db : Db) (issue_id : Int) : List String :=
  (db.issue_labels.filter (fun p => p.1 = issue_id)).filterMap
    (fun p => (db.labels.find? (fun l => l.id = p.2)).map
      (fun l => asciiLower l.name))

/-- The multi-label dedup of `list_issues`: keep the first occurrence of
each name under the folding `f` (`seen.insert(l.to_lowercase())` over a
`HashSet`); the source instantiates `f` with Rust's `to_lowercase`, i.e.
`rustLower`. -/
def dedupBy (f : String → String) : List String → List String → List String
  | _, [] => []
  | seen, n :: rest =>
      if f n ∈ seen then dedupBy f seen rest
      else n :: dedupBy f (f n :: seen) rest

/-- The correlated subquery of the multi-label branch: `SELECT COUNT(DISTINCT
l.name COLLATE NOCASE) FROM issue_labels il INNER JOIN labels l ON
il.label_id = l.id WHERE il.issue_id = i.id AND l.name IN (...) COLLATE
NOCASE`. -/
def matchedLabelCount (db : Db) (issue_id : Int) (requested : List String) : Nat :=
  (((issueLabelNamesLower db issue_id).filter
      (fun m => m ∈ requested.map asciiLower)).dedup).length

/-- The `i.state = ?` condition, when a state filter is present. -/
def stateOk (filter : IssueFilter) (i : Issue) : Bool :=
  filter.state.all (fun s => i.state = s)

/-- The `i.type = ?` condition, when a type filter is present. -/
def typeOk (filter : IssueFilter) (i : Issue) : Bool :=
  filter.issue_type.all (fun t => i.issue_type = t)

/-- The `i.deleted_at IS NULL` condition, absent when `include_deleted`. -/
def deletedOk (filter : IssueFilter) (i : Issue) : Bool :=
  filter.include_deleted || i.deleted_at = none

/-- The `ORDER BY` sort key (`i.updated_at`, `i.created_at` or `i.id`). -/
def sortKey (f : SortField) (i : Issue) : Int :=
  match f with
  | .updated => i.updated_at
  | .created => i.created_at
  | .id => i.id

/-- The `ORDER BY` comparison for the requested field and direction. -/
def keyLe (f : SortField) (o : SortOrder) (a b : Issue) : Bool :=
  match o with
  | .asc => sortKey f a ≤ sortKey f b
  | .desc => sortKey f b ≤ sortKey f a

/-- Insertion into a sorted list (used to model `ORDER BY`). -/
def insertSorted (le : Issue → Issue → Bool) (x : Issue) :
    List Issue → List Issue
  | [] => [x]
  | y :: ys => if le x y then x :: y :: ys else y :: insertSorted le x ys

/-- A deterministic model of `ORDER BY`: SQLite leaves the order of ties
unspecified, and the claims below use only membership and length. -/
def sortIssues (f : SortField) (o : SortOrder) (l : List Issue) : List Issue :=
  l.foldr (insertSorted (keyLe f o)) []

/-- `list_issues`.  With at most one label filter, one query joins and
filters directly; with two or more, the SQL is rebuilt around the
deduplicated-label correlated count, with the deletion, state and type
conditions re-applied alongside it.  Both branches end with the same `ORDER
BY ... LIMIT ... OFFSET ...`. -/
def list_issues (db : Db) (filter : IssueFilter) : List Issue :=
  let selected :=
    if filter.labels.length > 1 then
      let deduped := dedupBy rustLower [] filter.labels
      db.issues.filter (fun i =>
        deletedOk filter i &&
        (matchedLabelCount db i.id deduped = deduped.length) &&
        stateOk filter i && typeOk filter i)
    else
      db.issues.filter (fun i =>
        stateOk filter i && typeOk filter i &&
        filter.labels.all (fun n => issueHasLabelNocase db i.id n) &&
        deletedOk filter i)
  ((sortIssues filter.sort_by filter.sort_order selected).drop
    filter.offset).take filter.limit

/- Schema/migration manager, from `src/db/migrations.rs`. -/

/-- `LATEST_SCHEMA_VERSION`. -/
def LATEST_SCHEMA_VERSION : Int := 1

/-- An on-disk store as the migration manager sees it: the persisted
`PRAGMA user_version` plus the schema's tables (`none` before the initial
migration has created them). -/
structure Store where
  user_version : Int
  tables : Option Db
  deriving DecidableEq, Repr

/-- `migrate_v0_to_v1`: one `execute_batch` creating every table, trigger and
index and stamping `PRAGMA user_version = 1`.  `CREATE TABLE issues` fails
with a SQLite error when the schema already exists. -/
def migrate_v0_to_v1 (s : Store) : Except Error Unit × Store :=
  match s.tables with
  | some _ => (.error (.sqlite .tableExists), s)
  | none => (.ok (), { user_version := 1, tables := some Db.empty })

/-- `run_migrations`: read the persisted `user_version` and apply the pending
migrations (here: v0→v1) exactly when it is below the latest version. -/
def run_migrations (s : Store) : Except Error Unit × Store :=
  if s.user_version < 1 then migrate_v0_to_v1 s else (.ok (), s)

/- Helper lemmas about the embedding. -/

/-- `find?` by id commutes with an id-preserving conditional row update. -/
theorem find?_update (l : List Issue) (id : Int) (g : Issue → Issue)
    (hg : ∀ i, i.id = id → (g i).id = id) :
    (l.map (fun i => if i.id = id then g i else i)).find? (fun i => i.id = id)
      = (l.find? (fun i => i.id = id)).map g := by
  induction l with
  | nil => rfl
  | cons head tail ih =>
    by_cases h : head.id = id
    · simp only [List.map_cons, List.find?_cons, if_pos h]
      rw [show (decide ((g head).id = id)) = true from by simp [hg head h],
        show (decide (head.id = id)) = true from by simp [h]]
      rfl
    · simp only [List.map_cons, List.find?_cons, if_neg h]
      rw [show (decide (head.id = id)) = false from by simp [h]]
      exact ih

/-- `get_issue` after `UPDATE ... WHERE id = ?` sees the rewritten row. -/
theorem get_issue_updateIssueRows (db : Db) (id : Int) (f : Issue → Issue)
    (hf : ∀ i, (f i).id = i.id) :
    get_issue (updateIssueRows db id f) id
      = (get_issue db id).map (fun i => { f i with updated_at := db.clock }) := by
  unfold get_issue updateIssueRows
  exact find?_update db.issues id _ (fun i h => by simp [hf i, h])

/-- Rows produced by `updateIssueRows`: each is either an untouched row with a
different id, or the update of a row whose id matches. -/
theorem mem_updateIssueRows (db : Db) (id : Int) (f : Issue → Issue)
    (j : Issue) (hj : j ∈ (updateIssueRows db id f).issues) :
    ∃ i ∈ db.issues,
      (i.id = id ∧ j = { f i with updated_at := db.clock }) ∨ (¬ i.id = id ∧ j = i) := by
  unfold updateIssueRows at hj
  simp only [List.mem_map] at hj
  obtain ⟨i, hi, hij⟩ := hj
  refine ⟨i, hi, ?_⟩
  by_cases h : i.id = id
  · exact Or.inl ⟨h, by rw [← hij, if_pos h]⟩
  · exact Or.inr ⟨h, by rw [← hij, if_neg h]⟩

/-- Membership in an insertion-sorted list. -/
theorem mem_insertSorted (le : Issue → Issue → Bool) (x : Issue)
    (l : List Issue) (y : Issue) :
    y ∈ insertSorted le x l ↔ y = x ∨ y ∈ l := by
  induction l with
  | nil => simp [insertSorted]
  | cons head tail ih =>
    by_cases h : le x head
    · simp [insertSorted, h]
    · simp only [insertSorted, if_neg h, List.mem_cons, ih]
      tauto

/-- `sortIssues` is a permutation as far as membership is concerned. -/
theorem mem_sortIssues (f : SortField) (o : SortOrder) (l : List Issue)
    (y : Issue) : y ∈ sortIssues f o l ↔ y ∈ l := by
  unfold sortIssues
  induction l with
  | nil => simp
  | cons head tail ih =>
    simp only [List.foldr_cons, mem_insertSorted, List.mem_cons, ih]

/-- Insertion grows the length by one. -/
theorem length_insertSorted (le : Issue → Issue → Bool) (x : Issue)
    (l : List Issue) : (insertSorted le x l).length = l.length + 1 := by
  induction l with
  | nil => rfl
  | cons head tail ih =>
    by_cases h : le x head
    · simp [insertSorted, h]
    · simp [insertSorted, h, ih]

/-- `sortIssues` preserves length. -/
theorem length_sortIssues (f : SortField) (o : SortOrder) (l : List Issue) :
    (sortIssues f o l).length = l.length := by
  unfold sortIssues
  induction l with
  | nil => rfl
  | cons head tail ih => simp [length_insertSorted, ih]

/-- With offset 0 and a large enough limit, pagination returns everything:
membership in `list_issues` is membership in the filtered selection. -/
theorem mem_list_issues (db : Db) (filter : IssueFilter)
    (hoff : filter.offset = 0) (hlim : db.issues.length ≤ filter.limit)
    (y : Issue) :
    y ∈ list_issues db filter ↔
      y ∈ (if filter.labels.length > 1 then
        db.issues.filter (fun i =>
          deletedOk filter i &&
          (matchedLabelCount db i.id (dedupBy rustLower [] filter.labels)
            = (dedupBy rustLower [] filter.labels).length) &&
          stateOk filter i && typeOk filter i)
      else
        db.issues.filter (fun i =>
          stateOk filter i && typeOk filter i &&
          filter.labels.all (fun n => issueHasLabelNocase db i.id n) &&
          deletedOk filter i)) := by
  unfold list_issues
  by_cases h : filter.labels.length > 1 <;>
    · simp only [h, if_true, if_false, hoff, List.drop_zero, reduceIte]
      rw [List.take_of_length_le (by
        rw [length_sortIssues]
        exact le_trans (List.length_filter_le _ _) hlim)]
      exact mem_sortIssues _ _ _ y

/- Claim C1: state invariant. -/

/-- The data-model invariant: `state = open ⟺ state_reason = null ∧
closed_at = null`. -/
def IssueInvariant (i : Issue) : Prop :=
  i.state = .«open» ↔ (i.state_reason = none ∧ i.closed_at = none)

instance (i : Issue) : Decidable (IssueInvariant i) := by
  unfold IssueInvariant; infer_instance

/-- The invariant, for every row of the issues table. -/
def DbInvariant (db : Db) : Prop := ∀ i ∈ db.issues, IssueInvariant i

instance (db : Db) : Decidable (DbInvariant db) := by
  unfold DbInvariant; infer_instance

/-- `attachIgnore` only touches the `issue_labels` table. -/
theorem attachIgnore_issues (db : Db) (id : Int) (n : String) :
    (attachIgnore db id n).issues = db.issues := by
  unfold attachIgnore
  cases findLabelNocase db n with
  | none => rfl
  | some l =>
    by_cases h : (id, l.id) ∈ db.issue_labels <;> simp [h]

/-- The label-attachment fold of `create_issue` only touches `issue_labels`. -/
theorem attachFold_issues (names : List String) (db : Db) (id : Int) :
    (names.foldl (fun acc n => attachIgnore acc id n) db).issues = db.issues := by
  induction names generalizing db with
  | nil => rfl
  | cons n rest ih => rw [List.foldl_cons, ih, attachIgnore_issues]

/-- An `UPDATE ... WHERE id = ?` whose row rewrite preserves the invariant
preserves the whole-table invariant. -/
theorem DbInvariant_updateIssueRows (db : Db) (id : Int) (f : Issue → Issue)
    (h : DbInvariant db)
    (hf : ∀ i, IssueInvariant i →
      IssueInvariant { f i with updated_at := db.clock }) :
    DbInvariant (updateIssueRows db id f) := by
  intro j hj
  obtain ⟨i, hi, hcase⟩ := mem_updateIssueRows db id f j hj
  rcases hcase with ⟨hid, hj2⟩ | ⟨hid, hj2⟩
  · rw [hj2]
    exact hf i (h i hi)
  · rw [hj2]
    exact h i hi


/-- The issues table after `create_issue`: unchanged on failure, extended by
the freshly inserted open row on success. -/
theorem create_issue_issues (db : Db) (c : IssueCreate) :
    (create_issue db c).2.issues = db.issues ∨
    (create_issue db c).2.issues = db.issues ++ [newIssueRow db c] := by
  simp only [create_issue]
  split
  · exact Or.inl rfl
  · right
    split <;>
      simpa [Db.tick, createBase] using
        attachFold_issues c.labels _ db.next_issue_id

/-- The issues table after `update_issue`: unchanged, or rewritten through
`applyIssueUpdate` at the target id. -/
theorem update_issue_issues (db : Db) (id : Int) (u : IssueUpdate) :
    (update_issue db id u).2.issues = db.issues ∨
    (update_issue db id u).2.issues
      = (updateIssueRows db id (applyIssueUpdate u)).issues := by
  simp only [update_issue]
  split
  · exact Or.inl rfl
  · split
    · exact Or.inl rfl
    · split
      · exact Or.inr rfl
      · exact Or.inr rfl

/-- The issues table after `close_issue_with_comment`: unchanged, or
rewritten to the closed row at the target id (the optional comment insert
does not touch `issues`). -/
theorem close_issue_issues (db : Db) (id : Int) (r : StateReason)
    (cm : Option String) :
    (close_issue_with_comment db id r cm).2.issues = db.issues ∨
    (close_issue_with_comment db id r cm).2.issues
      = (updateIssueRows db id (fun i =>
          { i with state := .closed, state_reason := some r,
                   closed_at := some db.clock })).issues := by
  simp only [close_issue_with_comment]
  split
  · exact Or.inl rfl
  · split
    · exact Or.inl rfl
    · right
      split
      · split <;> simp [Db.tick, insertCommentRow]
      · split <;> simp [Db.tick, insertCommentRow]

/-- The issues table after `reopen_issue`: unchanged, or rewritten to the
reopened row at the target id. -/
theorem reopen_issue_issues (db : Db) (id : Int) :
    (reopen_issue db id).2.issues = db.issues ∨
    (reopen_issue db id).2.issues
      = (updateIssueRows db id (fun i =>
          { i with state := .«open», state_reason := none,
                   closed_at := none })).issues := by
  simp only [reopen_issue]
  split
  · exact Or.inl rfl
  · split
    · exact Or.inl rfl
    · split
      · exact Or.inr rfl
      · exact Or.inr rfl

/-- The issues table after `delete_issue`: unchanged, or stamped with
`deleted_at` at the target id. -/
theorem delete_issue_issues (db : Db) (id : Int) :
    (delete_issue db id).2.issues = db.issues ∨
    (delete_issue db id).2.issues
      = (updateIssueRows db id (fun i =>
          { i with deleted_at := some db.clock })).issues := by
  simp only [delete_issue]
  split
  · exact Or.inl rfl
  · exact Or.inr rfl

/-- The issues table after `restore_issue`: unchanged, or with `deleted_at`
cleared at the target id. -/
theorem restore_issue_issues (db : Db) (id : Int) :
    (restore_issue db id).2.issues = db.issues ∨
    (restore_issue db id).2.issues
      = (updateIssueRows db id (fun i => { i with deleted_at := none })).issues := by
  simp only [restore_issue]
  split
  · exact Or.inl rfl
  · split
    · exact Or.inr rfl
    · exact Or.inr rfl

/-- C1: after every mutation operation (create, update, close, reopen,
delete, restore), every issue satisfies `state = open ⟺ state_reason = null
∧ closed_at = null`. -/
theorem mutations_preserve_state_invariant (db : Db) (h : DbInvariant db) :
    (∀ c, DbInvariant (create_issue db c).2) ∧
    (∀ id u, DbInvariant (update_issue db id u).2) ∧
    (∀ id r cm, DbInvariant (close_issue_with_comment db id r cm).2) ∧
    (∀ id, DbInvariant (reopen_issue db id).2) ∧
    (∀ id, DbInvariant (delete_issue db id).2) ∧
    (∀ id, DbInvariant (restore_issue db id).2) := by
  have hsame : ∀ db2 : Db, db2.issues = db.issues → DbInvariant db2 :=
    fun db2 hdb2 j hj => h j (hdb2 ▸ hj)
  have hupd : ∀ (id : Int) (f : Issue → Issue),
      (∀ i, IssueInvariant i → IssueInvariant { f i with updated_at := db.clock }) →
      ∀ db2 : Db, db2.issues = (updateIssueRows db id f).issues →
        DbInvariant db2 := by
    intro id f hf db2 hdb2 j hj
    exact DbInvariant_updateIssueRows db id f h hf j (hdb2 ▸ hj)
  refine ⟨?_, ?_, ?_, ?_, ?_, ?_⟩
  · intro c
    rcases create_issue_issues db c with hc | hc
    · exact hsame _ hc
    · intro j hj
      rw [hc, List.mem_append] at hj
      rcases hj with hj | hj
      · exact h j hj
      · simp only [List.mem_singleton] at hj
        subst hj
        simp [IssueInvariant, newIssueRow]
  · intro id u
    rcases update_issue_issues db id u with hc | hc
    · exact hsame _ hc
    · refine hupd id _ ?_ _ hc
      intro i hi
      simpa [IssueInvariant, applyIssueUpdate] using hi
  · intro id r cm
    rcases close_issue_issues db id r cm with hc | hc
    · exact hsame _ hc
    · refine hupd id _ ?_ _ hc
      intro i _
      simp [IssueInvariant]
  · intro id
    rcases reopen_issue_issues db id with hc | hc
    · exact hsame _ hc
    · refine hupd id _ ?_ _ hc
      intro i _
      simp [IssueInvariant]
  · intro id
    rcases delete_issue_issues db id with hc | hc
    · exact hsame _ hc
    · refine hupd id _ ?_ _ hc
      intro i hi
      simpa [IssueInvariant] using hi
  · intro id
    rcases restore_issue_issues db id with hc | hc
    · exact hsame _ hc
    · refine hupd id _ ?_ _ hc
      intro i hi
      simpa [IssueInvariant] using hi

/- Claim C4: state transitions. -/

/-- The row rewrite performed by the `UPDATE` of `close_issue_with_comment`
(including the `updated_at` trigger). -/
def closedRow (issue : Issue) (r : StateReason) (now : Nat) : Issue :=
  { issue with state := .closed, state_reason := some r, closed_at := some now,
               updated_at := now }

/-- The row rewrite performed by the `UPDATE` of `reopen_issue` (including
the `updated_at` trigger). -/
def reopenedRow (issue : Issue) (now : Nat) : Issue :=
  { issue with state := .«open», state_reason := none, closed_at := none,
               updated_at := now }

/-- `get_issue` only looks at the issues table. -/
theorem get_issue_congr (db db' : Db) (h : db.issues = db'.issues) (id : Int) :
    get_issue db id = get_issue db' id := by
  unfold get_issue
  rw [h]

/-- Forward computation of a successful close: the closed row it returns and
the fact that the resulting state holds that row. -/
theorem close_issue_ok (db : Db) (id : Int) (issue : Issue) (r : StateReason)
    (cm : Option String) (hg : get_issue db id = some issue)
    (hst : ¬ issue.state = .closed) :
    ∃ db1, close_issue_with_comment db id r cm
        = (.ok (closedRow issue r db.clock), db1)
      ∧ get_issue db1 id = some (closedRow issue r db.clock) := by
  have hkey : get_issue (updateIssueRows db id (fun i =>
      { i with state := .closed, state_reason := some r,
               closed_at := some db.clock })) id
      = some (closedRow issue r db.clock) := by
    rw [get_issue_updateIssueRows db id (fun i =>
      { i with state := .closed, state_reason := some r,
               closed_at := some db.clock }) (fun i => rfl), hg]
    rfl
  cases cm with
  | none =>
    simp only [close_issue_with_comment, hg, if_neg hst, hkey]
    exact ⟨_, rfl, hkey⟩
  | some body =>
    have hkey2 : get_issue (insertCommentRow (updateIssueRows db id (fun i =>
        { i with state := .closed, state_reason := some r,
                 closed_at := some db.clock })) id body) id
        = some (closedRow issue r db.clock) :=
      (get_issue_congr _ _ rfl id).trans hkey
    simp only [close_issue_with_comment, hg, if_neg hst, hkey2]
    exact ⟨_, rfl, hkey2⟩

/-- Forward computation of a successful reopen. -/
theorem reopen_issue_ok (db : Db) (id : Int) (issue : Issue)
    (hg : get_issue db id = some issue) (hst : ¬ issue.state = .«open») :
    ∃ db1, reopen_issue db id = (.ok (reopenedRow issue db.clock), db1)
      ∧ get_issue db1 id = some (reopenedRow issue db.clock) := by
  have hkey : get_issue (updateIssueRows db id (fun i =>
      { i with state := .«open», state_reason := none, closed_at := none })) id
      = some (reopenedRow issue db.clock) := by
    rw [get_issue_updateIssueRows db id (fun i =>
      { i with state := .«open», state_reason := none, closed_at := none })
      (fun i => rfl), hg]
    rfl
  simp only [reopen_issue, hg, if_neg hst, hkey]
  exact ⟨_, rfl, hkey⟩

/-- C4: close on an already-closed issue fails with the already-closed
state-transition error; reopen on an already-open issue fails with the
already-open state-transition error; and close followed by reopen leaves the
issue open with `state_reason` and `closed_at` cleared. -/
theorem close_reopen_state_machine (db : Db) (id : Int) (issue : Issue)
    (hg : get_issue db id = some issue) :
    (issue.state = .closed → ∀ r cm, close_issue_with_comment db id r cm
        = (.error (.invalidStateTransition id "closed"), db)) ∧
    (issue.state = .«open» → reopen_issue db id
        = (.error (.invalidStateTransition id "open"), db)) ∧
    (issue.state = .«open» → ∀ r cm, ∃ db1,
      close_issue_with_comment db id r cm
          = (.ok (closedRow issue r db.clock), db1) ∧
      (∀ r2 cm2, close_issue_with_comment db1 id r2 cm2
          = (.error (.invalidStateTransition id "closed"), db1)) ∧
      (∃ i2 db2, reopen_issue db1 id = (.ok i2, db2) ∧
        i2.state = .«open» ∧ i2.state_reason = none ∧ i2.closed_at = none)) := by
  refine ⟨?_, ?_, ?_⟩
  · intro hcl r cm
    simp [close_issue_with_comment, hg, if_pos hcl]
  · intro hopen
    simp [reopen_issue, hg, if_pos hopen]
  · intro hopen r cm
    have hst : ¬ issue.state = .closed := by
      rw [hopen]
      simp
    obtain ⟨db1, hcl, hget1⟩ := close_issue_ok db id issue r cm hg hst
    refine ⟨db1, hcl, ?_, ?_⟩
    · intro r2 cm2
      simp [close_issue_with_comment, hget1, closedRow]
    · obtain ⟨db2, hro, hget2⟩ :=
        reopen_issue_ok db1 id (closedRow issue r db.clock) hget1
          (by simp [closedRow])
      exact ⟨_, db2, hro, rfl, rfl, rfl⟩

/- Concrete stores used by the witnesses below. -/

/-- A concrete open issue. -/
def exIssue : Issue :=
  { id := 1, title := "T", body := none, issue_type := .task,
    state := .«open», state_reason := none, created_at := 0, updated_at := 0,
    closed_at := none, deleted_at := none }

/-- A store holding the single open issue `exIssue`. -/
def exDb : Db := { Db.empty with issues := [exIssue], next_issue_id := 2 }

/-- Witness for C1 at a concrete store and mutation. -/
theorem mutations_preserve_state_invariant_witness :
    DbInvariant exDb ∧
    DbInvariant (close_issue_with_comment exDb 1 .completed none).2 :=
  ⟨by decide,
    (mutations_preserve_state_invariant exDb (by decide)).2.2.1 1 .completed none⟩

/-- Witness for C4: the close/close/reopen chain on a concrete store. -/
theorem close_reopen_state_machine_witness :
    ∃ db1,
      close_issue_with_comment exDb 1 .completed none
          = (.ok (closedRow exIssue .completed exDb.clock), db1) ∧
      (∀ r2 cm2, close_issue_with_comment db1 1 r2 cm2
          = (.error (.invalidStateTransition 1 "closed"), db1)) ∧
      (∃ i2 db2, reopen_issue db1 1 = (.ok i2, db2) ∧
        i2.state = .«open» ∧ i2.state_reason = none ∧ i2.closed_at = none) :=
  (close_reopen_state_machine exDb 1 exIssue (by decide)).2.2 (by decide)
    .completed none


/- Claim C5: bidirectional links. -/

/-- The canonical pair does not depend on the argument order (smaller id). -/
theorem minId_comm (a b : Int) (h : ¬ a = b) : minId b a = minId a b := by
  unfold minId
  rcases lt_trichotomy a b with hlt | heq | hgt
  · simp [hlt, asymm hlt]
  · exact absurd heq h
  · simp [hgt, asymm hgt]

/-- The canonical pair does not depend on the argument order (larger id). -/
theorem maxId_comm (a b : Int) (h : ¬ a = b) : maxId b a = maxId a b := by
  unfold maxId
  rcases lt_trichotomy a b with hlt | heq | hgt
  · simp [hlt, asymm hlt]
  · exact absurd heq h
  · simp [hgt, asymm hgt]

/-- For distinct arguments the canonical smaller endpoint is `min`. -/
theorem minId_eq_min (a b : Int) (h : ¬ a = b) : minId a b = min a b := by
  unfold minId
  rcases lt_trichotomy a b with hlt | heq | hgt
  · simp [hlt, le_of_lt hlt]
  · exact absurd heq h
  · simp [not_lt_of_gt hgt, min_eq_right (le_of_lt hgt)]

/-- For distinct arguments the canonical larger endpoint is `max`. -/
theorem maxId_eq_max (a b : Int) (h : ¬ a = b) : maxId a b = max a b := by
  unfold maxId
  rcases lt_trichotomy a b with hlt | heq | hgt
  · simp [hlt, max_eq_right (le_of_lt hlt)]
  · exact absurd heq h
  · simp [not_lt_of_gt hgt, max_eq_left (le_of_lt hgt)]

/-- Inversion of a successful `add_link`: the arguments were distinct and
existing, the canonical pair was absent, and it was appended. -/
theorem add_link_ok_inv (db : Db) (a b : Int) (db1 : Db)
    (h : add_link db a b = (.ok (), db1)) :
    ¬ a = b ∧ issueExists db a = true ∧ issueExists db b = true ∧
    linkExists db (minId a b) (maxId a b) = false ∧
    db1.issues = db.issues ∧
    db1.issue_links = db.issue_links ++
      [({ issue_a_id := minId a b, issue_b_id := maxId a b,
          created_at := db.clock } : Link)] := by
  unfold add_link at h
  by_cases h1 : a = b
  · rw [if_pos h1] at h
    exact absurd h (by simp)
  rw [if_neg h1] at h
  by_cases h2 : issueExists db a = true
  swap
  · rw [if_pos (by simpa using h2)] at h
    exact absurd h (by simp)
  rw [if_neg (by simpa using h2)] at h
  by_cases h3 : issueExists db b = true
  swap
  · rw [if_pos (by simpa using h3)] at h
    exact absurd h (by simp)
  rw [if_neg (by simpa using h3)] at h
  by_cases h4 : linkExists db (minId a b) (maxId a b) = true
  · rw [if_pos h4] at h
    exact absurd h (by simp)
  rw [if_neg h4] at h
  have hdb1 : ({ db with issue_links := db.issue_links ++
      [({ issue_a_id := minId a b, issue_b_id := maxId a b,
          created_at := db.clock } : Link)] }).tick = db1 := by
    simpa using congrArg Prod.snd h
  subst hdb1
  exact ⟨h1, h2, h3, by simpa using h4, rfl, rfl⟩

/-- C5: `add_link(a,b)` and `add_link(b,a)` denote the same link — after the
first succeeds, the swapped call fails as a duplicate, and `remove_link(b,a)`
removes the link created as `add_link(a,b)`; `add_link(x,x)` always fails. -/
theorem link_symmetry (db : Db) (a b : Int) :
    (∀ x, add_link db x x = (.error .selfLink, db)) ∧
    (∀ db1, add_link db a b = (.ok (), db1) →
      add_link db1 b a = (.error (.duplicateLink (min a b) (max a b)), db1) ∧
      (remove_link db1 b a).1 = .ok () ∧
      (remove_link db1 b a).2.issue_links = db.issue_links) := by
  constructor
  · intro x
    simp [add_link]
  · intro db1 h
    obtain ⟨hne, hexa, hexb, hany, hissues, hlinks⟩ := add_link_ok_inv db a b db1 h
    have hba : ¬ b = a := fun e => hne e.symm
    have hex1 : ∀ x, issueExists db1 x = issueExists db x := by
      intro x
      unfold issueExists
      rw [hissues]
    have hdup : linkExists db1 (minId b a) (maxId b a) = true := by
      unfold linkExists
      rw [hlinks, minId_comm a b hne, maxId_comm a b hne]
      simp [List.any_append]
    refine ⟨?_, rfl, ?_⟩
    · unfold add_link
      rw [if_neg hba, if_neg (by simp [hex1, hexb]),
        if_neg (by simp [hex1, hexa]), if_pos hdup,
        minId_comm a b hne, maxId_comm a b hne,
        minId_eq_min a b hne, maxId_eq_max a b hne]
    · have hnot : ∀ x ∈ db.issue_links,
          x.issue_a_id = minId a b → ¬ x.issue_b_id = maxId a b := by
        simpa [linkExists] using hany
      have hkeep : ∀ l ∈ db.issue_links,
          (decide ¬ (l.issue_a_id = minId b a ∧ l.issue_b_id = maxId b a)) = true := by
        intro l hl
        rw [minId_comm a b hne, maxId_comm a b hne]
        simp only [decide_eq_true_eq]
        exact fun hc => hnot l hl hc.1 hc.2
      simp only [remove_link, Db.tick, hlinks, List.filter_append]
      rw [List.filter_eq_self.mpr hkeep]
      rw [minId_comm a b hne, maxId_comm a b hne]
      simp

/- Claim C6: soft delete and visibility. -/

/-- The row returned by `get_issue` has the requested id. -/
theorem get_issue_id (db : Db) (id : Int) (issue : Issue)
    (hg : get_issue db id = some issue) : issue.id = id := by
  simpa using List.find?_some hg

/-- The row returned by `get_issue` is in the issues table. -/
theorem get_issue_mem (db : Db) (id : Int) (issue : Issue)
    (hg : get_issue db id = some issue) : issue ∈ db.issues :=
  List.mem_of_find?_eq_some hg

/-- Row updates do not change the table's cardinality. -/
theorem updateIssueRows_length (db : Db) (id : Int) (f : Issue → Issue) :
    (updateIssueRows db id f).issues.length = db.issues.length := by
  simp [updateIssueRows]

/-- Everything `list_issues` returns comes from the issues table and passes
the deletion filter. -/
theorem list_issues_sub (db : Db) (f : IssueFilter) (y : Issue)
    (hy : y ∈ list_issues db f) : y ∈ db.issues ∧ deletedOk f y = true := by
  unfold list_issues at hy
  have hy2 := List.mem_of_mem_drop (List.mem_of_mem_take hy)
  rw [mem_sortIssues] at hy2
  by_cases h : f.labels.length > 1
  · rw [if_pos h] at hy2
    have hmf := List.mem_filter.mp hy2
    refine ⟨hmf.1, ?_⟩
    have hp := hmf.2
    simp only [Bool.and_eq_true] at hp
    exact hp.1.1.1
  · rw [if_neg h] at hy2
    have hmf := List.mem_filter.mp hy2
    refine ⟨hmf.1, ?_⟩
    have hp := hmf.2
    simp only [Bool.and_eq_true] at hp
    exact hp.2

/-- Forward computation of a successful soft delete. -/
theorem delete_issue_ok (db : Db) (id : Int) (issue : Issue)
    (hg : get_issue db id = some issue) :
    ∃ db1, delete_issue db id = (.ok (), db1)
      ∧ get_issue db1 id
          = some { issue with deleted_at := some db.clock, updated_at := db.clock }
      ∧ db1.issues = (updateIssueRows db id (fun i =>
          { i with deleted_at := some db.clock })).issues := by
  have hkey : get_issue (updateIssueRows db id (fun i =>
      { i with deleted_at := some db.clock })) id
      = some { issue with deleted_at := some db.clock, updated_at := db.clock } := by
    rw [get_issue_updateIssueRows db id (fun i =>
      { i with deleted_at := some db.clock }) (fun i => rfl), hg]
    rfl
  simp only [delete_issue, hg]
  exact ⟨_, rfl, hkey, rfl⟩

/-- Forward computation of a successful restore. -/
theorem restore_issue_ok (db : Db) (id : Int) (issue : Issue)
    (hg : get_issue db id = some issue) :
    ∃ db1, restore_issue db id
        = (.ok ({ issue with deleted_at := none, updated_at := db.clock }), db1)
      ∧ get_issue db1 id
          = some { issue with deleted_at := none, updated_at := db.clock }
      ∧ db1.issues.length = db.issues.length := by
  have hkey : get_issue (updateIssueRows db id (fun i =>
      { i with deleted_at := none })) id
      = some { issue with deleted_at := none, updated_at := db.clock } := by
    rw [get_issue_updateIssueRows db id (fun i => { i with deleted_at := none })
      (fun i => rfl), hg]
    rfl
  simp only [restore_issue, hg, hkey]
  exact ⟨_, rfl, hkey, by simp [Db.tick, updateIssueRows_length]⟩

/-- C6: soft deletion only affects listing visibility — after `delete(id)`
the default `list()` excludes the issue, `list(include_deleted=true)`
includes it, after `restore(id)` the default `list()` includes it again, and
`get(id)` returns the soft-deleted row unconditionally. -/
theorem soft_delete_visibility (db : Db) (id : Int) (issue : Issue)
    (hg : get_issue db id = some issue) (hlen : db.issues.length ≤ 30) :
    ∃ db1, delete_issue db id = (.ok (), db1) ∧
      get_issue db1 id
        = some { issue with deleted_at := some db.clock, updated_at := db.clock } ∧
      (∀ j ∈ list_issues db1 IssueFilter.default, ¬ j.id = id) ∧
      (∃ j ∈ list_issues db1
          { IssueFilter.default with include_deleted := true }, j.id = id) ∧
      (∃ i2 db2, restore_issue db1 id = (.ok i2, db2) ∧
        ∃ j ∈ list_issues db2 IssueFilter.default, j.id = id) := by
  have hisid := get_issue_id db id issue hg
  obtain ⟨db1, hdel, hget1, hiss⟩ := delete_issue_ok db id issue hg
  have hlen1 : db1.issues.length ≤ 30 := by
    rw [hiss, updateIssueRows_length]
    exact hlen
  refine ⟨db1, hdel, hget1, ?_, ?_, ?_⟩
  · intro j hj hjid
    obtain ⟨hjmem, hjdel⟩ := list_issues_sub db1 IssueFilter.default j hj
    have hjnone : j.deleted_at = none := by
      simpa [deletedOk, IssueFilter.default] using hjdel
    rw [hiss] at hjmem
    obtain ⟨i, hi, hcase⟩ := mem_updateIssueRows db id _ j hjmem
    rcases hcase with ⟨hid, hj2⟩ | ⟨hid, hj2⟩
    · rw [hj2] at hjnone
      simp at hjnone
    · rw [hj2] at hjid
      exact hid hjid
  · refine ⟨{ issue with deleted_at := some db.clock, updated_at := db.clock },
      ?_, by simpa using hisid⟩
    rw [mem_list_issues db1 _ rfl hlen1]
    rw [if_neg (by simp [IssueFilter.default])]
    refine List.mem_filter.mpr ⟨get_issue_mem db1 id _ hget1, ?_⟩
    simp [stateOk, typeOk, deletedOk, IssueFilter.default]
  · obtain ⟨db2, hres, hget2, hlen2⟩ := restore_issue_ok db1 id _ hget1
    refine ⟨_, db2, hres,
      ⟨{ { issue with deleted_at := some db.clock, updated_at := db.clock } with
          deleted_at := none, updated_at := db1.clock }, ?_, by simpa using hisid⟩⟩
    rw [mem_list_issues db2 _ rfl (by rw [hlen2]; exact hlen1)]
    rw [if_neg (by simp [IssueFilter.default])]
    refine List.mem_filter.mpr ⟨get_issue_mem db2 id _ hget2, ?_⟩
    simp [stateOk, typeOk, deletedOk, IssueFilter.default]

/-- A second concrete open issue. -/
def exIssue2 : Issue := { exIssue with id := 2 }

/-- A store holding the two open issues 1 and 2. -/
def exDb2 : Db :=
  { Db.empty with issues := [exIssue, exIssue2], next_issue_id := 3 }

/-- Witness for C5: self-link, duplicate swapped link, swapped removal. -/
theorem link_symmetry_witness :
    add_link exDb2 1 1 = (.error .selfLink, exDb2) ∧
    (add_link (add_link exDb2 1 2).2 2 1
        = (.error (.duplicateLink (min (1 : Int) 2) (max (1 : Int) 2)),
           (add_link exDb2 1 2).2) ∧
     (remove_link (add_link exDb2 1 2).2 2 1).1 = .ok () ∧
     (remove_link (add_link exDb2 1 2).2 2 1).2.issue_links
        = exDb2.issue_links) :=
  ⟨(link_symmetry exDb2 1 2).1 1,
   (link_symmetry exDb2 1 2).2 (add_link exDb2 1 2).2 (by decide)⟩

/-- Witness for C6 at a concrete store. -/
theorem soft_delete_visibility_witness :
    ∃ db1, delete_issue exDb 1 = (.ok (), db1) ∧
      get_issue db1 1
        = some { exIssue with
                   deleted_at := some exDb.clock, updated_at := exDb.clock } ∧
      (∀ j ∈ list_issues db1 IssueFilter.default, ¬ j.id = 1) ∧
      (∃ j ∈ list_issues db1
          { IssueFilter.default with include_deleted := true }, j.id = 1) ∧
      (∃ i2 db2, restore_issue db1 1 = (.ok i2, db2) ∧
        ∃ j ∈ list_issues db2 IssueFilter.default, j.id = 1) :=
  soft_delete_visibility exDb 1 exIssue (by decide) (by decide)

/- Claim C3: label validation and idempotent attachment in `create_issue`. -/

/-- What a `some` result of the validation loop means. -/
theorem firstMissingLabel_some (db : Db) (ns : List String) (n : String)
    (h : firstMissingLabel db ns = some n) :
    n ∈ ns ∧ labelExistsNocase db n = false := by
  induction ns with
  | nil => simp [firstMissingLabel] at h
  | cons m rest ih =>
    unfold firstMissingLabel at h
    by_cases hm : labelExistsNocase db m
    · rw [if_pos hm] at h
      obtain ⟨h1, h2⟩ := ih h
      exact ⟨List.mem_cons_of_mem m h1, h2⟩
    · rw [if_neg hm] at h
      cases h
      exact ⟨List.mem_cons_self _ _, by simpa using hm⟩

/-- The validation loop returns `none` exactly when every name exists. -/
theorem firstMissingLabel_none (db : Db) (ns : List String) :
    firstMissingLabel db ns = none ↔
      ∀ n ∈ ns, labelExistsNocase db n = true := by
  induction ns with
  | nil => simp [firstMissingLabel]
  | cons m rest ih =>
    unfold firstMissingLabel
    by_cases hm : labelExistsNocase db m
    · rw [if_pos hm]
      simp [ih, hm]
    · rw [if_neg hm]
      simp only [List.mem_cons]
      constructor
      · intro h
        cases h
      · intro h
        exact absurd (h m (Or.inl rfl)) hm

/-- `attachIgnore` only touches the `issue_labels` table (labels view). -/
theorem attachIgnore_labels (db : Db) (id : Int) (n : String) :
    (attachIgnore db id n).labels = db.labels := by
  unfold attachIgnore
  cases findLabelNocase db n with
  | none => rfl
  | some l =>
    by_cases h : (id, l.id) ∈ db.issue_labels <;> simp [h]

/-- The NOCASE lookup only depends on the labels table. -/
theorem findLabelNocase_congr (db db' : Db) (h : db.labels = db'.labels)
    (n : String) : findLabelNocase db n = findLabelNocase db' n := by
  unfold findLabelNocase
  rw [h]

/-- The NOCASE lookup identifies names that fold to the same letters. -/
theorem findLabelNocase_ext (db : Db) (n m : String)
    (h : asciiLower n = asciiLower m) :
    findLabelNocase db n = findLabelNocase db m := by
  unfold findLabelNocase
  rw [h]

/-- Attaching names that all resolve to an already-attached label is a no-op
on the association table. -/
theorem attachFold_noop (ns : List String) (l0 : Label) (id : Int)
    (acc : Db) (hres : ∀ n ∈ ns, findLabelNocase acc n = some l0)
    (hmem : (id, l0.id) ∈ acc.issue_labels) :
    ns.foldl (fun a n => attachIgnore a id n) acc = acc := by
  induction ns with
  | nil => rfl
  | cons n rest ih =>
    rw [List.foldl_cons]
    have h1 : attachIgnore acc id n = acc := by
      unfold attachIgnore
      simp only [hres n (List.mem_cons_self n rest)]
      rw [if_pos hmem]
    rw [h1]
    exact ih (fun m hm => hres m (List.mem_cons_of_mem n hm))

/-- Attaching a nonempty batch of names that all resolve to the same
not-yet-attached label inserts exactly one association row. -/
theorem attachFold_once (ns : List String) (l0 : Label) (id : Int)
    (acc : Db) (hne : ns ≠ [])
    (hres : ∀ n ∈ ns, findLabelNocase acc n = some l0)
    (hnot : ¬ (id, l0.id) ∈ acc.issue_labels) :
    (ns.foldl (fun a n => attachIgnore a id n) acc).issue_labels
      = acc.issue_labels ++ [(id, l0.id)] := by
  cases ns with
  | nil => exact absurd rfl hne
  | cons n rest =>
    rw [List.foldl_cons]
    have h1 : attachIgnore acc id n
        = { acc with issue_labels := acc.issue_labels ++ [(id, l0.id)] } := by
      unfold attachIgnore
      simp only [hres n (List.mem_cons_self n rest)]
      rw [if_neg hnot]
    rw [h1]
    rw [attachFold_noop rest l0 id _ ?_ (by simp)]
    intro m hm
    rw [findLabelNocase_congr
      { acc with issue_labels := acc.issue_labels ++ [(id, l0.id)] } acc rfl m]
    exact hres m (List.mem_cons_of_mem n hm)

/-- C3: `create_issue` validates every requested label name (NOCASE) before
inserting anything and fails whole with `LabelNotFound` leaving the store
unchanged; on success, duplicate or differently-cased repetitions of one
label name produce exactly one association. -/
theorem create_issue_label_validation (db : Db) (c : IssueCreate) :
    ((∃ n ∈ c.labels, labelExistsNocase db n = false) →
      ∃ n ∈ c.labels, labelExistsNocase db n = false ∧
        create_issue db c = (.error (.labelNotFound n), db)) ∧
    (c.labels ≠ [] →
      (∀ m ∈ c.labels, ∀ m' ∈ c.labels, asciiLower m = asciiLower m') →
      (∀ p ∈ db.issue_labels, ¬ p.1 = db.next_issue_id) →
      ∀ i db1, create_issue db c = (.ok i, db1) →
        (db1.issue_labels.filter (fun p => p.1 = i.id)).length = 1) := by
  constructor
  · rintro ⟨n, hn, hnex⟩
    cases hm : firstMissingLabel db c.labels with
    | none =>
      have := (firstMissingLabel_none db c.labels).mp hm n hn
      rw [this] at hnex
      cases hnex
    | some n' =>
      obtain ⟨hmem, hfalse⟩ := firstMissingLabel_some db c.labels n' hm
      refine ⟨n', hmem, hfalse, ?_⟩
      simp only [create_issue, hm]
  · intro hne hsame hfresh i db1 h
    cases hm : firstMissingLabel db c.labels with
    | some n' =>
      simp only [create_issue, hm] at h
      simp at h
    | none =>
      simp only [create_issue, hm] at h
      obtain ⟨n0, hn0⟩ := List.exists_mem_of_ne_nil c.labels hne
      have hall := (firstMissingLabel_none db c.labels).mp hm
      obtain ⟨l0, hl0⟩ : ∃ l0, findLabelNocase db n0 = some l0 :=
        Option.isSome_iff_exists.mp (by
          simpa [labelExistsNocase] using hall n0 hn0)
      have hres : ∀ n ∈ c.labels,
          findLabelNocase (createBase db c) n = some l0 := by
        intro n hn
        rw [findLabelNocase_congr (createBase db c) db rfl n,
          findLabelNocase_ext db n n0 (hsame n hn n0 hn0)]
        exact hl0
      have hnot : ¬ (db.next_issue_id, l0.id) ∈ (createBase db c).issue_labels :=
        fun hmem => hfresh _ hmem rfl
      have hfold := attachFold_once c.labels l0 db.next_issue_id
        (createBase db c) hne hres hnot
      cases hg2 : get_issue (c.labels.foldl
          (fun acc n => attachIgnore acc db.next_issue_id n)
          (createBase db c)) db.next_issue_id with
      | none =>
        simp only [hg2] at h
        simp at h
      | some i' =>
        simp only [hg2] at h
        simp only [Prod.mk.injEq, Except.ok.injEq] at h
        obtain ⟨hi, hdb1⟩ := h
        have hid : i.id = db.next_issue_id := by
          rw [← hi]
          exact get_issue_id _ _ _ hg2
        rw [← hdb1, hid]
        have hfilter : db.issue_labels.filter
            (fun p => decide (p.1 = db.next_issue_id)) = [] :=
          List.filter_eq_nil_iff.mpr (fun p hp => by simpa using hfresh p hp)
        have htick : ((c.labels.foldl
            (fun acc n => attachIgnore acc db.next_issue_id n)
            (createBase db c)).tick).issue_labels
            = db.issue_labels ++ [(db.next_issue_id, l0.id)] := hfold
        rw [htick, List.filter_append, hfilter]
        simp

/-- A store holding one label named `bug` (with an explicit color). -/
def exDbLbl : Db :=
  { Db.empty with
    labels := [{ id := 1, name := "bug", description := none,
                 color := some "abc123" }],
    next_label_id := 2 }

/-- Witness for C3: a missing label aborts the create on an empty store, and
the request `["bug","bug","BUG"]` against one `bug` label attaches once. -/
theorem create_issue_label_validation_witness :
    (∃ n ∈ ["missing"], labelExistsNocase Db.empty n = false ∧
      create_issue Db.empty ⟨"T", none, .task, ["missing"]⟩
        = (.error (.labelNotFound n), Db.empty)) ∧
    ((create_issue exDbLbl ⟨"T", none, .task, ["bug", "bug", "BUG"]⟩).2.issue_labels.filter
        (fun p => p.1 = exIssue.id)).length = 1 :=
  ⟨(create_issue_label_validation Db.empty ⟨"T", none, .task, ["missing"]⟩).1
      (by decide),
   (create_issue_label_validation exDbLbl
      ⟨"T", none, .task, ["bug", "bug", "BUG"]⟩).2 (by decide) (by decide)
      (by decide) exIssue
      (create_issue exDbLbl ⟨"T", none, .task, ["bug", "bug", "BUG"]⟩).2
      (by decide)⟩

/- Claim C2: multi-label AND filtering. -/

/-- Every digit emitted by the hex formatter is lowercase hex. -/
theorem hexDigitChar_lower (n : Nat) : isLowerHexdigit (hexDigitChar n) = true := by
  unfold hexDigitChar
  split <;> decide

/-- Both digits of a `{:02x}`-formatted byte are lowercase hex. -/
theorem toHex2_lower (n : Nat) : ∀ c ∈ (toHex2 n).data, isLowerHexdigit c = true := by
  intro c hc
  simp only [toHex2, List.mem_cons, List.not_mem_nil, or_false] at hc
  rcases hc with h | h <;>
    · rw [h]
      exact hexDigitChar_lower _

/-- Characters of a concatenation. -/
theorem string_data_append (s t : String) : (s ++ t).data = s.data ++ t.data := by
  cases s
  cases t
  rfl

/-- The generated color is always exactly six lowercase hex digits. -/
theorem generate_color_six_lower_hex (name : String) :
    (generate_color name).length = 6 ∧
      ∀ c ∈ (generate_color name).data, isLowerHexdigit c = true := by
  unfold generate_color
  constructor
  · rfl
  · intro c hc
    rw [string_data_append, string_data_append] at hc
    rcases List.mem_append.mp hc with h | h
    · rcases List.mem_append.mp h with h2 | h2
      · exact toHex2_lower _ c h2
      · exact toHex2_lower _ c h2
    · exact toHex2_lower _ c h

/-- The generated color only depends on the lower-cased name: names that
fold to the same letters get the identical color. -/
theorem generate_color_lower_invariant (s t : String)
    (h : asciiLower s = asciiLower t) : generate_color s = generate_color t := by
  unfold generate_color
  rw [h]

/-- C7: with no supplied color, `create_label` stores a color of exactly six
lowercase hex digits generated deterministically from the lower-cased name
(so `Bug` and `bug` get the identical color); a supplied color that is not
exactly six hex digits fails the operation with `InvalidColor`. -/
theorem label_color_generation (db : Db) (name : String)
    (desc : Option String) :
    ((generate_color name).length = 6 ∧
      ∀ c ∈ (generate_color name).data, isLowerHexdigit c = true) ∧
    (∀ s t, asciiLower s = asciiLower t →
      generate_color s = generate_color t) ∧
    ((¬ db.labels.any (fun l => asciiLower l.name = asciiLower name)) →
      ∃ db1, create_label db name desc none
        = (.ok ({ id := db.next_label_id, name := name, description := desc,
                  color := some (generate_color name) }), db1)) ∧
    (∀ c, ¬ (c.length = 6 ∧ c.toList.all isAsciiHexdigit = true) →
      create_label db name desc (some c) = (.error (.invalidColor c), db)) := by
  refine ⟨generate_color_six_lower_hex name, generate_color_lower_invariant,
    ?_, ?_⟩
  · intro hfresh
    unfold create_label insertLabelRow
    rw [if_neg hfresh]
    exact ⟨_, rfl⟩
  · intro c hc
    have hval : validate_color c = .error (.invalidColor c) := by
      unfold validate_color
      by_cases hlen : c.length = 6
      · rw [if_neg (by simpa using hlen)]
        rw [if_pos]
        intro hall
        exact hc ⟨hlen, by simpa using hall⟩
      · rw [if_pos (by simpa using hlen)]
    simp only [create_label, hval]

/-- Witness for C7: `Bug`/`bug` get one color, a fresh no-color create stores
the generated color, and the malformed color `xyz` is rejected. -/
theorem label_color_generation_witness :
    generate_color "Bug" = generate_color "bug" ∧
    (∃ db1, create_label Db.empty "bug" none none
      = (.ok ({ id := 1, name := "bug", description := none,
                color := some (generate_color "bug") }), db1)) ∧
    create_label Db.empty "bug" none (some "xyz")
      = (.error (.invalidColor "xyz"), Db.empty) :=
  ⟨(label_color_generation Db.empty "x" none).2.1 "Bug" "bug" (by decide),
   (label_color_generation Db.empty "bug" none).2.2.1 (by decide),
   (label_color_generation Db.empty "bug" none).2.2.2 "xyz" (by decide)⟩

/- Claim C8: schema migrations. -/

/-- C8: `run_migrations` reads the persisted schema version; when it is below
the latest version it applies the pending migration and stamps the new
version, and on an already-current store it is a no-op. -/
theorem run_migrations_spec (s : Store) :
    (LATEST_SCHEMA_VERSION ≤ s.user_version → run_migrations s = (.ok (), s)) ∧
    (s.user_version < LATEST_SCHEMA_VERSION → s.tables = none →
      run_migrations s = (.ok (), { user_version := LATEST_SCHEMA_VERSION,
                                    tables := some Db.empty })) := by
  constructor
  · intro h
    unfold run_migrations
    rw [if_neg (by
      simp only [LATEST_SCHEMA_VERSION] at h
      omega)]
  · intro h ht
    unfold run_migrations migrate_v0_to_v1
    rw [if_pos (by
      simp only [LATEST_SCHEMA_VERSION] at h
      omega), ht]
    rfl

/-- Witness for C8: a no-op on a current store, a fresh v0 migration. -/
theorem run_migrations_spec_witness :
    run_migrations { user_version := 1, tables := some Db.empty }
      = (.ok (), { user_version := 1, tables := some Db.empty }) ∧
    run_migrations { user_version := 0, tables := none }
      = (.ok (), { user_version := LATEST_SCHEMA_VERSION,
                   tables := some Db.empty }) :=
  ⟨(run_migrations_spec _).1 (by decide),
   (run_migrations_spec _).2 (by decide) rfl⟩

/- Claim C9: duplicate label names. -/

/-- The spec's five error kinds (§7). -/
inductive SpecErrorKind where
  | notFound | alreadyExists | invalidInput | invalidStateTransition
  | storageFailure
  deriving DecidableEq, Repr

/-- Modelled from the spec: §7 classifies failures as NotFound
(store/issue/comment/label missing), AlreadyExists (duplicate label,
duplicate link, double-init), InvalidInput (bad color format, bad enum
value, self-link), InvalidStateTransition (close-when-closed,
reopen-when-open), and StorageFailure (underlying engine error, surfaced
unchanged).  This maps the code's error type onto those kinds
(`NotImplemented` is not classified by the spec; it is mapped to
storageFailure and unused below). -/
def specErrorKind : Error → SpecErrorKind
  | .notARepository => .notFound
  | .issueNotFound _ => .notFound
  | .commentNotFound _ => .notFound
  | .labelNotFound _ => .notFound
  | .alreadyInitialized => .alreadyExists
  | .duplicateLink _ _ => .alreadyExists
  | .invalidColor _ => .invalidInput
  | .invalidIssueType _ => .invalidInput
  | .invalidStateReason _ => .invalidInput
  | .selfLink => .invalidInput
  | .invalidStateTransition _ _ => .invalidStateTransition
  | .notImplemented _ => .storageFailure
  | .sqlite _ => .storageFailure

/-- Counterexample for C9: creating `Bug` over the existing `bug` label does
fail, but with the raw SQLite UNIQUE-constraint failure — an error the spec
classifies as StorageFailure, not as the AlreadyExists kind. -/
theorem duplicate_label_kind_counterexample :
    (create_label exDbLbl "Bug" none none).1
        = .error (.sqlite .uniqueConstraint) ∧
    specErrorKind (.sqlite .uniqueConstraint) ≠ SpecErrorKind.alreadyExists := by
  constructor
  · decide
  · decide

/-- C9 (amended): `create_label` with a case-insensitively duplicate name
fails, but the failure is the storage layer's UNIQUE-constraint error
surfaced unchanged (spec kind StorageFailure), not a dedicated AlreadyExists
error. -/
theorem duplicate_label_fails_storage (db : Db) (name : String)
    (desc : Option String)
    (hdup : ∃ l ∈ db.labels, asciiLower l.name = asciiLower name) :
    (create_label db name desc none).1 = .error (.sqlite .uniqueConstraint) ∧
    (∀ c, validate_color c = .ok () →
      (create_label db name desc (some c)).1
        = .error (.sqlite .uniqueConstraint)) ∧
    specErrorKind (.sqlite .uniqueConstraint) = .storageFailure := by
  have hany : db.labels.any
      (fun l => asciiLower l.name = asciiLower name) = true := by
    rw [List.any_eq_true]
    obtain ⟨l, hl, he⟩ := hdup
    exact ⟨l, hl, by simpa using he⟩
  refine ⟨?_, ?_, rfl⟩
  · simp only [create_label, insertLabelRow, if_pos hany]
  · intro c hv
    simp only [create_label, hv, insertLabelRow, if_pos hany]

/-- Witness for C9's amended statement at a concrete duplicate. -/
theorem duplicate_label_fails_storage_witness :
    (create_label exDbLbl "BUG" none none).1
        = .error (.sqlite .uniqueConstraint) ∧
    (∀ c, validate_color c = .ok () →
      (create_label exDbLbl "BUG" none (some c)).1
        = .error (.sqlite .uniqueConstraint)) ∧
    specErrorKind (.sqlite .uniqueConstraint) = .storageFailure :=
  duplicate_label_fails_storage exDbLbl "BUG" none (by decide)

/- Claim C10: attach never checks the target issue. -/

/-- C10: `add_label_to_issue` on an id absent from the issues table, with an
existing label, fails with the storage layer's FOREIGN-KEY constraint error
(surfaced unchanged), not with an issue-not-found error. -/
theorem attach_unknown_issue_fk (db : Db) (issue_id : Int)
    (label_name : String)
    (hno : ∀ i ∈ db.issues, ¬ i.id = issue_id)
    (hlbl : (findLabelNocase db label_name).isSome = true)
    (hfk : ∀ p ∈ db.issue_labels, ∃ i ∈ db.issues, i.id = p.1) :
    add_label_to_issue db issue_id label_name
      = (.error (.sqlite .foreignKeyConstraint), db) := by
  obtain ⟨l, hl⟩ := Option.isSome_iff_exists.mp hlbl
  have hnotmem : ¬ (issue_id, l.id) ∈ db.issue_labels := by
    intro hmem
    obtain ⟨i, hi, hid⟩ := hfk _ hmem
    exact hno i hi hid
  have hnoex : issueExists db issue_id = false := by
    unfold issueExists
    rw [List.any_eq_false]
    intro i hi
    simpa using hno i hi
  simp only [add_label_to_issue, hl, if_neg hnotmem]
  rw [if_neg (by simp [hnoex])]

/-- Witness for C10: attaching `bug` to the absent issue 7. -/
theorem attach_unknown_issue_fk_witness :
    add_label_to_issue exDbLbl 7 "bug"
      = (.error (.sqlite .foreignKeyConstraint), exDbLbl) :=
  attach_unknown_issue_fk exDbLbl 7 "bug" (by decide) (by decide) (by decide)
